import Mathlib

/-!
Verification of `functions.py`, the four-stage ETL pipeline
(Catalog Collector → Transcript Fetcher → Text Normalizer → Embedding
Generator) of the ETL-Pipelines-Automation repository.

Modelling conventions, stated once:
* Python strings are modelled as `List Char` (`Str`).
* JSON values as returned by `json.loads` are the inductive `JValue`;
  a response body is an `Option JValue` (`none` = the body is not valid
  JSON, i.e. `json.loads` raises `JSONDecodeError`).
* A Python exception that escapes a function is an `Except` error value;
  the Python `TypeError` and `KeyError` are the two error kinds the
  collector code can meet.
* `polars` `str.replace(pat, val)` replaces the FIRST occurrence of the
  literal pattern (none of the patterns used contains a regex
  metacharacter), which `replaceFirst` implements character by character.
* The `cast(pl.Datetime)` of `setDatatypes` is modelled by an explicit
  datetime cell `DTCell` together with a caller-supplied total parser
  `parse : Str → Int` (epoch micros); casting an already-`Datetime`
  column is the identity, as in polars.
* Embedding scalars are never inspected arithmetically by the code, so
  the model's vector components are abstracted as `Int`; the model
  itself is a caller-supplied `encode : Str → List Int` of output
  dimension `D`.
-/

set_option autoImplicit false

namespace ETL

/-- Python strings, as lists of characters. -/
abbrev Str := List Char

/-- Embed a Lean string literal as a `Str`. -/
def strOf (s : String) : Str := s.data

/-- The apostrophe character (code 39), written via its code point. -/
def apos : Char := Char.ofNat 39

/-! ### Substring machinery for `str.replace` (first occurrence) -/

/-- `leadsWith pat s` holds when `pat` is an initial segment of `s`. -/
def leadsWith : Str → Str → Bool
  | [], _ => true
  | _ :: _, [] => false
  | a :: as, b :: bs => decide (a = b) && leadsWith as bs

/-- `containsSub pat s` holds when `pat` occurs somewhere inside `s`. -/
def containsSub (pat : Str) : Str → Bool
  | [] => leadsWith pat []
  | c :: rest => leadsWith pat (c :: rest) || containsSub pat rest

/-- `polars` `Series.str.replace(pat, val)`: replace the first occurrence
of the literal pattern `pat` by `val`, leaving the string unchanged when
`pat` does not occur. -/
def replaceFirst (pat val : Str) : Str → Str
  | [] => if pat = ([] : Str) then val else []
  | c :: rest =>
    if leadsWith pat (c :: rest) then val ++ (c :: rest).drop pat.length
    else c :: replaceFirst pat val rest

/-! ### JSON values and the Python operations the collector performs -/

/-- A decoded JSON value, as produced by `json.loads`. -/
inductive JValue where
  | null
  | bool (b : Bool)
  | num (n : Int)
  | str (s : Str)
  | arr (xs : List JValue)
  | obj (fields : List (Str × JValue))

/-- The two Python exception kinds the collector code can raise:
`TypeError` (never caught by `getVideoRecords`) and `KeyError`
(caught by its `except KeyError` clause). -/
inductive PyErr where
  | typeError
  | keyError
  deriving DecidableEq

/-- First binding of a key in a JSON object's field list
(`json.loads` never yields duplicate keys). -/
def lookupKey (k : Str) : List (Str × JValue) → Option JValue
  | [] => none
  | (k2, v) :: rest => if k2 = k then some v else lookupKey k rest

/-- Python `ks == v` for a string constant against a JSON element
(non-strings simply compare unequal). -/
def isStrEq (k : Str) : JValue → Bool
  | .str s => decide (s = k)
  | _ => false

/-- Python `k in x` for a string `k`: key membership on a dict, element
membership on a list, substring test on a string, `TypeError` otherwise. -/
def pyContains (k : Str) : JValue → Except PyErr Bool
  | .obj fields => .ok (fields.any fun p => decide (p.1 = k))
  | .arr xs => .ok (xs.any (isStrEq k))
  | .str s => .ok (containsSub k s)
  | _ => .error .typeError

/-- Python `x[k]` for a string `k`: dict lookup (raising `KeyError` when
the key is absent), `TypeError` on every non-dict value. -/
def pyIndex (k : Str) : JValue → Except PyErr JValue
  | .obj fields =>
    match lookupKey k fields with
    | some v => .ok v
    | none => .error .keyError
  | _ => .error .typeError

/-- The key the collector extracts records from. -/
def itemsKey : Str := strOf "items"

/-- The pagination cursor key. -/
def pageTokenKey : Str := strOf "nextPageToken"

/-- `getVideoRecords(response)` of functions.py over the decoded body:
`none` (undecodable body) is caught by `except json.JSONDecodeError` and
yields `[]`; a `KeyError` anywhere in the `try` block is caught and
yields `[]`; a `TypeError` (e.g. `'items' in 3`) is NOT caught and
escapes as `.error .typeError`. -/
def getVideoRecords (body : Option JValue) : Except PyErr JValue :=
  match body with
  | none => .ok (.arr [])
  | some v =>
    match pyContains itemsKey v with
    | .error .keyError => .ok (.arr [])
    | .error .typeError => .error .typeError
    | .ok false => .ok (.arr [])
    | .ok true =>
      match pyIndex itemsKey v with
      | .error .keyError => .ok (.arr [])
      | .error .typeError => .error .typeError
      | .ok w => .ok w

/-- `video_record_list += ...` requires the value to be a list; the model
treats extension by any non-list value as the crash it (or the later
`pl.DataFrame`) would be. -/
def asList : JValue → Option (List JValue)
  | .arr xs => some xs
  | _ => none

/-- The `page_token` grab of `getVideoIDs`:
`json.loads(response.text)['nextPageToken']` inside a bare `try/except`,
so any failure (undecodable body, missing key, non-dict body) sets the
token to the loop-killing value, modelled as `none`. -/
def nextTokenOf (body : Option JValue) : Option JValue :=
  match body with
  | none => none
  | some v =>
    match pyIndex pageTokenKey v with
    | .ok t => some t
    | .error _ => none

/-- The `while page_token != 0` loop of `getVideoIDs`, run against a mock
server that answers the `k`-th request with the `k`-th body of the list.
Returns the accumulated record list (`none` when an uncaught exception
aborts the run) paired with the number of network calls made. The `[]`
case is unreachable for the sequences the claims quantify over: it would
mean the loop requested a page the mock does not have. -/
def collectLoop : List (Option JValue) → List JValue → Option (List JValue) × Nat
  | [], acc => (some acc, 0)
  | body :: rest, acc =>
    match getVideoRecords body with
    | .error _ => (none, 1)
    | .ok w =>
      match asList w with
      | none => (none, 1)
      | some items =>
        match nextTokenOf body with
        | none => (some (acc ++ items), 1)
        | some _ =>
          let r := collectLoop rest (acc ++ items)
          (r.1, r.2 + 1)

/-- `getVideoIDs` run against a mock response sequence: the loop starts
with an empty accumulator. -/
def getVideoIDs (pages : List (Option JValue)) : Option (List JValue) × Nat :=
  collectLoop pages []

/-- A well-formed mock page: a JSON object with an `items` array and an
optional `nextPageToken` string. -/
structure MockPage where
  items : List JValue
  next : Option Str

/-- The response body a mock page stands for. -/
def MockPage.toBody (m : MockPage) : Option JValue :=
  some (.obj ((itemsKey, .arr m.items) ::
    (match m.next with
     | some t => [(pageTokenKey, .str t)]
     | none => [])))

/-! ### Stage 2: the Transcript Fetcher -/

/-- One caption fragment as returned by the captions API
(`{text, start, duration}`); only `text` is ever read, so the two
numeric fields are abstracted as integers. -/
structure Frag where
  text : Str
  start : Int
  duration : Int
  deriving DecidableEq

/-- Python `' '.join`. -/
def joinWithSpace : List Str → Str
  | [] => []
  | [s] => s
  | s :: rest => s ++ ' ' :: joinWithSpace rest

/-- `extractTranscriptText(transcript)` of functions.py: the `text`
fields of the fragments, in order, joined by single spaces. -/
def extractTranscriptText (transcript : List Frag) : Str :=
  joinWithSpace (transcript.map fun f => f.text)

/-- A row of `data/video-ids.parquet`, the Transcript Fetcher's input
(schema per the spec's data model: identifier, publish datetime, title). -/
structure CatalogRow where
  video_id : Str
  datetime : Str
  title : Str
  deriving DecidableEq

/-- A `datetime` cell: raw text before `setDatatypes`, a structured
timestamp (epoch value) after the `cast(pl.Datetime)`. -/
inductive DTCell where
  | utf8 (s : Str)
  | dtime (t : Int)
  deriving DecidableEq

/-- A row of the VideoTable from stage 2 onward. -/
structure Row where
  video_id : Str
  datetime : DTCell
  title : Str
  transcript : Str
  deriving DecidableEq

/-- `getVideoTranscripts()` of functions.py over an explicit caption
service `lookup` (the `YouTubeTranscriptApi.get_transcript` call, which
either returns the fragment list or raises some error `ε`): every row
gets a `transcript` column, the bare `except` collapsing every failure
to the sentinel `"n/a"`. -/
def getVideoTranscripts {ε : Type} (lookup : Str → Except ε (List Frag))
    (df : List CatalogRow) : List Row :=
  df.map fun r =>
    { video_id := r.video_id
      datetime := .utf8 r.datetime
      title := r.title
      transcript :=
        match lookup r.video_id with
        | .ok transcript => extractTranscriptText transcript
        | .error _ => strOf "n/a" }

/-! ### Stage 3: the Text Normalizer -/

/-- `special_strings` of `handleSpecialStrings`. -/
def special_strings : List Str := [strOf "&#39;", strOf "&amp;", strOf "sha "]

/-- `special_string_replacements` of `handleSpecialStrings` (the first
replacement is the single apostrophe character). -/
def special_string_replacements : List Str := [[apos], strOf "&", strOf "Shaw "]

/-- The two parallel lists, paired up as the loop index `i` pairs them. -/
def specialPairs : List (Str × Str) := special_strings.zip special_string_replacements

/-- `handleSpecialStrings(df)` of functions.py: for each special string
in order, rewrite the `title` column then the `transcript` column with
the first-occurrence replacement. -/
def handleSpecialStrings (df : List Row) : List Row :=
  specialPairs.foldl
    (fun df p => df.map fun r =>
      { r with
        title := replaceFirst p.1 p.2 r.title
        transcript := replaceFirst p.1 p.2 r.transcript })
    df

/-- The per-cell effect of `handleSpecialStrings`: the three
first-occurrence replacements applied in order to one string. -/
def substStr (s : Str) : Str :=
  specialPairs.foldl (fun s p => replaceFirst p.1 p.2 s) s

/-- A string in which none of the three special substrings occurs. -/
def noSpecials (s : Str) : Prop := ∀ p ∈ specialPairs, containsSub p.1 s = false

instance (s : Str) : Decidable (noSpecials s) :=
  List.decidableBAll (fun p : Str × Str => containsSub p.1 s = false) specialPairs

/-- The `cast(pl.Datetime)` of the `datetime` column: raw text is parsed
(by the caller-supplied total parser), an already-structured timestamp
is left unchanged, as a polars cast of a `Datetime` column to `Datetime`
is the identity. -/
def castToDatetime (parse : Str → Int) : DTCell → DTCell
  | .utf8 s => .dtime (parse s)
  | .dtime t => .dtime t

/-- `setDatatypes(df)` of functions.py. -/
def setDatatypes (parse : Str → Int) (df : List Row) : List Row :=
  df.map fun r => { r with datetime := castToDatetime parse r.datetime }

/-- `transformData()` of functions.py as a pure table transform:
`handleSpecialStrings` then `setDatatypes`. -/
def transformData (parse : Str → Int) (df : List Row) : List Row :=
  setDatatypes parse (handleSpecialStrings df)

/-! ### Stage 4: the Embedding Generator -/

/-- One appended embedding column: its name and its per-row values. -/
structure NamedCol where
  name : Str
  vals : List Int
  deriving DecidableEq

/-- Column `i` of the embedding block for one text field: named
`<field>_embedding-<i>`, holding component `i` of every row's vector
(component access is total here because the claims fix the model's
output dimension). -/
def embCol (encode : Str → List Int) (field : Str) (texts : List Str) (i : Nat) :
    NamedCol :=
  { name := field ++ strOf "_embedding-" ++ strOf (toString i)
    vals := texts.map fun s => (encode s).getD i 0 }

/-- The `D` columns `pl.DataFrame(embedding_arr, schema=schema_dict)`
builds for one text field, in index order `0, …, D-1`. -/
def embedColumns (encode : Str → List Int) (D : Nat) (field : Str)
    (texts : List Str) : List NamedCol :=
  (List.range D).map (embCol encode field texts)

/-- The final index table: the input rows (untouched by the horizontal
concat) plus the appended embedding columns, in append order. -/
structure IndexTable where
  rows : List Row
  embCols : List NamedCol

/-- `createTextEmbeddings()` of functions.py as a pure transform over an
explicit embedding model `encode` of output dimension `D`: the loop over
`column_name_list = ['title', 'transcript']` horizontally concatenates
the title block, then the transcript block. -/
def createTextEmbeddings (encode : Str → List Int) (D : Nat) (df : List Row) :
    IndexTable :=
  { rows := df
    embCols :=
      embedColumns encode D (strOf "title") (df.map fun r => r.title) ++
      embedColumns encode D (strOf "transcript") (df.map fun r => r.transcript) }

/-- `Except.isOk` written out, to state that a call did not raise. -/
def isOkE {ε α : Type} : Except ε α → Bool
  | .ok _ => true
  | .error _ => false

/-- The per-row effect of `handleSpecialStrings`. -/
def rowSubst (r : Row) : Row :=
  { r with title := substStr r.title, transcript := substStr r.transcript }

/-! ### Concrete sample inputs used by witnesses and counterexamples -/

/-- A concrete datetime parser (the claims never inspect parsed values). -/
def parse0 : Str → Int := fun _ => 0

/-- A one-row table whose title holds the apostrophe entity twice. -/
def badTable : List Row :=
  [{ video_id := strOf "v1", datetime := .utf8 (strOf "2024-01-01"),
     title := strOf "&#39;&#39;", transcript := strOf "hi" }]

/-- A one-row table free of every special substring. -/
def goodTable : List Row :=
  [{ video_id := strOf "v1", datetime := .utf8 (strOf "2024-01-01"),
     title := strOf "hello", transcript := strOf "world" }]

/-- A concrete embedding model of output dimension 1. -/
def encode1 : Str → List Int := fun _ => [0]

/-- A caption service that raises on every identifier. -/
def lookupFail : Str → Except Unit (List Frag) := fun _ => .error ()

/-- A one-row catalog table. -/
def catalogSample : List CatalogRow :=
  [{ video_id := strOf "vid1", datetime := strOf "2024-01-01", title := strOf "T" }]

/-- A mock page carrying one record and a next-page cursor. -/
def mockA : MockPage := ⟨[JValue.num 1], some (strOf "tokA")⟩

/-- A terminal mock page carrying one record and no cursor. -/
def mockB : MockPage := ⟨[JValue.num 2], none⟩

/-- The response of an empty channel: no items, no cursor. -/
def mockEmpty : MockPage := ⟨[], none⟩

/-- A cursor-less terminal page with a full batch of 50 records. -/
def mockFull : MockPage := ⟨List.replicate 50 JValue.null, none⟩

/-- A cursor-less page holding a single record. -/
def mockNoCursor : MockPage := ⟨[JValue.null], none⟩

/-! ## Theorems -/

theorem replaceFirst_of_not_contains (pat val : Str) :
    ∀ s : Str, containsSub pat s = false → replaceFirst pat val s = s := by
  intro s
  induction s with
  | nil =>
    intro h
    cases pat with
    | nil => simp [containsSub, leadsWith] at h
    | cons a as => simp [replaceFirst]
  | cons c rest ih =>
    intro h
    simp only [containsSub, Bool.or_eq_false_iff] at h
    simp [replaceFirst, h.1, ih h.2]

theorem getVideoRecords_toBody (m : MockPage) :
    getVideoRecords m.toBody = .ok (.arr m.items) := rfl

theorem nextTokenOf_toBody (m : MockPage) :
    nextTokenOf m.toBody = Option.map JValue.str m.next := by
  obtain ⟨items, next⟩ := m
  cases next <;> rfl

theorem collectLoop_mock (front : List MockPage) (last : MockPage) (acc : List JValue)
    (hfront : ∀ m ∈ front, ∃ t, m.next = some t)
    (hlast : last.next = none) :
    collectLoop ((front ++ [last]).map MockPage.toBody) acc
      = (some (acc ++ ((front ++ [last]).map (fun m => m.items)).flatten),
         front.length + 1) := by
  induction front generalizing acc with
  | nil =>
    simp only [List.nil_append, List.map_cons, List.map_nil, collectLoop,
      getVideoRecords_toBody, nextTokenOf_toBody, hlast, Option.map_none', asList]
    simp
  | cons m front2 ih =>
    obtain ⟨t, ht⟩ := hfront m (List.mem_cons_self m front2)
    have ih2 := ih (acc ++ m.items) (fun m2 hm2 => hfront m2 (List.mem_cons_of_mem m hm2))
    simp only [List.cons_append, List.map_cons, List.append_eq, collectLoop,
      getVideoRecords_toBody, nextTokenOf_toBody, ht, Option.map_some', asList]
    rw [ih2]
    simp [List.append_assoc]

theorem any_eq_lookupKey (k : Str) (fields : List (Str × JValue)) :
    (fields.any fun p => decide (p.1 = k)) = (lookupKey k fields).isSome := by
  induction fields with
  | nil => rfl
  | cons p rest ih =>
    obtain ⟨k2, v⟩ := p
    by_cases h : k2 = k
    · simp [lookupKey, h]
    · simp [lookupKey, h, ih]

/-- C2 (counterexample): a two-page mock sequence whose LAST response lacks
the next-cursor field, but whose first response also lacks it. The claim
as stated promises the concatenation of both pages' items; the loop in
fact kills the page token at the first cursor-less response and returns
only the first page's items. -/
theorem getVideoIDs_concat_cex :
    ¬ ((getVideoIDs ([mockNoCursor, mockB].map MockPage.toBody)).1
        = some (([mockNoCursor, mockB].map (fun m => m.items)).flatten)) := by
  intro h
  have h2 : some [JValue.null] = some [JValue.null, JValue.num 2] := h
  have h3 := Option.some.inj h2
  have h4 := congrArg List.length h3
  simp at h4

/-- C2 (amended): for a finite mock page sequence in which every response
before the last carries a next-cursor and the last lacks one, the
pagination loop terminates and accumulates exactly the concatenation of
every page's items, in page order. -/
theorem getVideoIDs_concat_of_cursors (front : List MockPage) (last : MockPage)
    (hfront : ∀ m ∈ front, ∃ t, m.next = some t)
    (hlast : last.next = none) :
    (getVideoIDs ((front ++ [last]).map MockPage.toBody)).1
      = some (((front ++ [last]).map (fun m => m.items)).flatten) := by
  rw [getVideoIDs, collectLoop_mock front last [] hfront hlast]
  simp

/-- C2 (witness): the amended pagination theorem applied to a concrete
two-page sequence. -/
theorem getVideoIDs_concat_witness :
    (getVideoIDs ([mockA, mockB].map MockPage.toBody)).1
      = some [JValue.num 1, JValue.num 2] := by
  have hf : ∀ m ∈ [mockA], ∃ t, m.next = some t := by
    intro m hm
    simp only [List.mem_singleton] at hm
    subst hm
    exact ⟨strOf "tokA", rfl⟩
  exact getVideoIDs_concat_of_cursors [mockA] mockB hf rfl

/-- C7: a response whose body is not valid JSON (`json.loads` raises, so
the decoded body is `none`) contributes exactly zero records —
`getVideoRecords` returns `[]` without raising — and the collection loop
does not crash on such a page (it returns its accumulator; the bare
`except` around the token grab also ends pagination there). -/
theorem getVideoRecords_malformed_page :
    getVideoRecords none = .ok (.arr []) ∧
    ∀ (rest : List (Option JValue)) (acc : List JValue),
      collectLoop (none :: rest) acc = (some acc, 1) := by
  refine ⟨rfl, fun rest acc => ?_⟩
  simp [collectLoop, getVideoRecords, asList, nextTokenOf]

theorem sum_lengths_const (front : List MockPage)
    (h : ∀ m ∈ front, m.items.length = 50) :
    ((front.map fun m => m.items).map List.length).sum = 50 * front.length := by
  induction front with
  | nil => simp
  | cons m rest ih =>
    have hm := h m (List.mem_cons_self m rest)
    have ih2 := ih (fun m2 hm2 => h m2 (List.mem_cons_of_mem m hm2))
    simp only [List.map_cons, List.sum_cons, List.length_cons, hm, ih2]
    omega

/-- C8 (counterexample): for an empty channel (`video_count = 0`) the mock
server answers one page with no items and no cursor; the loop still makes
its initial network call, so total calls = 1 ≠ ceil(0 / 50) = 0. -/
theorem getVideoIDs_call_count_cex :
    (getVideoIDs ([mockEmpty].map MockPage.toBody)).2
      ≠ ((([mockEmpty].map (fun m => m.items)).map List.length).sum + 49) / 50 := by
  decide

/-- C8 (amended): one network call is made per page, and for a channel
with `video_count ≥ 1` videos paginated at 50 per page — every page
before the last full with 50 items and a cursor, the last with between 1
and 50 items and no cursor — the total number of calls equals
ceil(video_count / 50). -/
theorem getVideoIDs_call_count (front : List MockPage) (last : MockPage)
    (hfront : ∀ m ∈ front, m.items.length = 50 ∧ ∃ t, m.next = some t)
    (hlast : last.next = none)
    (h1 : 1 ≤ last.items.length) (h50 : last.items.length ≤ 50) :
    (getVideoIDs ((front ++ [last]).map MockPage.toBody)).2 = front.length + 1 ∧
    front.length + 1
      = ((((front ++ [last]).map fun m => m.items).map List.length).sum + 49) / 50 := by
  constructor
  · rw [getVideoIDs, collectLoop_mock front last [] (fun m hm => (hfront m hm).2) hlast]
  · have hsum := sum_lengths_const front (fun m hm => (hfront m hm).1)
    simp only [List.map_append, List.sum_append, List.map_cons, List.map_nil,
      List.sum_cons, List.sum_nil, hsum]
    omega

/-- C8 (witness): the call-count theorem applied to a single full
cursor-less page: one call, and ceil(50 / 50) = 1. -/
theorem getVideoIDs_call_count_witness :
    (getVideoIDs ([mockFull].map MockPage.toBody)).2 = 1 ∧
    1 = ((([mockFull].map fun m => m.items).map List.length).sum + 49) / 50 := by
  have h := getVideoIDs_call_count [] mockFull
    (fun m hm => absurd hm (List.not_mem_nil m)) rfl (by decide) (by decide)
  exact ⟨h.1, h.2⟩

/-- C10 (counterexample): `getVideoRecords` is not total over arbitrary
response texts: the body `"3"` is valid JSON, so `json.loads` succeeds
with the integer 3, and `'items' in 3` raises a `TypeError` that no
`except` clause of the function catches. -/
theorem getVideoRecords_raises_cex :
    getVideoRecords (some (JValue.num 3)) = .error .typeError := rfl

/-- C10 (amended): `getVideoRecords` returns without raising whenever the
body is invalid JSON (yielding `[]`) or decodes to a JSON object —
yielding the object's `items` value when the key is present and `[]`
otherwise; bodies decoding to non-object JSON can raise an uncaught
`TypeError`. -/
theorem getVideoRecords_total_on_objects :
    getVideoRecords none = .ok (.arr []) ∧
    ∀ fields : List (Str × JValue),
      getVideoRecords (some (.obj fields))
        = match lookupKey itemsKey fields with
          | some v => .ok v
          | none => .ok (.arr []) := by
  refine ⟨rfl, fun fields => ?_⟩
  have hany := any_eq_lookupKey itemsKey fields
  cases hl : lookupKey itemsKey fields with
  | none =>
    rw [hl] at hany
    simp only [Option.isSome_none] at hany
    simp [getVideoRecords, pyContains, hany, hl]
  | some v =>
    rw [hl] at hany
    simp only [Option.isSome_some] at hany
    simp [getVideoRecords, pyContains, pyIndex, hany, hl]

theorem map_eq_self_of {α : Type} (f : α → α) :
    ∀ l : List α, (∀ x ∈ l, f x = x) → l.map f = l := by
  intro l
  induction l with
  | nil => intro _; rfl
  | cons x rest ih =>
    intro h
    simp only [List.map_cons, h x (List.mem_cons_self x rest),
      ih (fun y hy => h y (List.mem_cons_of_mem x hy))]

theorem handleSpecialStrings_eq_map (df : List Row) :
    handleSpecialStrings df = df.map rowSubst := by
  have hsp : specialPairs = [(strOf "&#39;", [apos]), (strOf "&amp;", strOf "&"),
      (strOf "sha ", strOf "Shaw ")] := rfl
  simp only [handleSpecialStrings, hsp, List.foldl_cons, List.foldl_nil, List.map_map]
  rfl

theorem substStr_of_noSpecials (s : Str) (h : noSpecials s) : substStr s = s := by
  have h1 : containsSub (strOf "&#39;") s = false := h (strOf "&#39;", [apos]) (by decide)
  have h2 : containsSub (strOf "&amp;") s = false := h (strOf "&amp;", strOf "&") (by decide)
  have h3 : containsSub (strOf "sha ") s = false := h (strOf "sha ", strOf "Shaw ") (by decide)
  show replaceFirst (strOf "sha ") (strOf "Shaw ")
      (replaceFirst (strOf "&amp;") (strOf "&")
        (replaceFirst (strOf "&#39;") [apos] s)) = s
  rw [replaceFirst_of_not_contains _ _ s h1, replaceFirst_of_not_contains _ _ s h2,
    replaceFirst_of_not_contains _ _ s h3]

theorem castToDatetime_idem (parse : Str → Int) (c : DTCell) :
    castToDatetime parse (castToDatetime parse c) = castToDatetime parse c := by
  cases c <;> rfl

theorem setDatatypes_idem (parse : Str → Int) (df : List Row) :
    setDatatypes parse (setDatatypes parse df) = setDatatypes parse df := by
  simp only [setDatatypes, List.map_map]
  refine List.map_congr_left ?_
  intro r _
  simp [Function.comp, castToDatetime_idem]

theorem handleSpecialStrings_setDatatypes (parse : Str → Int) (df : List Row) :
    handleSpecialStrings (setDatatypes parse df)
      = setDatatypes parse (handleSpecialStrings df) := by
  simp only [handleSpecialStrings_eq_map, setDatatypes, List.map_map]
  refine List.map_congr_left ?_
  intro r _
  cases r
  rfl

/-- C1 (counterexample): the Text Normalizer is not idempotent: polars
`str.replace` rewrites only the first occurrence, so a title holding the
apostrophe entity twice still holds it once after one normalization pass
and changes again on the second pass. -/
theorem transformData_not_idempotent_cex :
    transformData parse0 (transformData parse0 badTable)
      ≠ transformData parse0 badTable := by
  decide

/-- C1 (amended): applying the normalization (`handleSpecialStrings`
followed by `setDatatypes`) twice equals applying it once for every
table whose rows, after one `handleSpecialStrings` pass, are free of all
three special substrings in both text columns (in particular whenever
each special substring occurred at most once per cell and no replacement
re-introduced one). -/
theorem transformData_idem_of_noSpecials (parse : Str → Int) (df : List Row)
    (h : ∀ r ∈ handleSpecialStrings df, noSpecials r.title ∧ noSpecials r.transcript) :
    transformData parse (transformData parse df) = transformData parse df := by
  have hss : handleSpecialStrings (handleSpecialStrings df) = handleSpecialStrings df := by
    rw [handleSpecialStrings_eq_map (handleSpecialStrings df)]
    apply map_eq_self_of
    intro r hr
    obtain ⟨ht, htr⟩ := h r hr
    cases r with
    | mk v d t tr =>
      simp only [rowSubst]
      simp [substStr_of_noSpecials _ ht, substStr_of_noSpecials _ htr]
  show setDatatypes parse (handleSpecialStrings (setDatatypes parse (handleSpecialStrings df)))
      = setDatatypes parse (handleSpecialStrings df)
  rw [handleSpecialStrings_setDatatypes, hss, setDatatypes_idem]

/-- C1 (witness): the amended idempotence theorem applied to a concrete
table free of special substrings. -/
theorem transformData_idem_witness :
    transformData parse0 (transformData parse0 goodTable) = transformData parse0 goodTable :=
  transformData_idem_of_noSpecials parse0 goodTable (by decide)

/-- C3: for every row of the input table whose caption lookup raises
(`isOkE … = false`), the Transcript Fetcher records exactly the sentinel
`"n/a"` as that row's transcript; the failure is not propagated (the
fetcher still produces the full output table). -/
theorem getVideoTranscripts_sentinel {ε : Type} (lookup : Str → Except ε (List Frag))
    (df : List CatalogRow) (i : Nat) (h : i < df.length)
    (herr : isOkE (lookup (df.get ⟨i, h⟩).video_id) = false) :
    ((getVideoTranscripts lookup df).get
        ⟨i, by simpa [getVideoTranscripts] using h⟩).transcript = strOf "n/a" := by
  cases hcall : lookup (df.get ⟨i, h⟩).video_id with
  | ok transcript =>
    rw [hcall] at herr
    simp [isOkE] at herr
  | error e =>
    simp only [getVideoTranscripts, List.get_eq_getElem, List.getElem_map]
    simp only [List.get_eq_getElem] at hcall
    simp [hcall]

/-- C3 (witness): the sentinel theorem applied to a one-row table and a
caption service that raises on every identifier. -/
theorem getVideoTranscripts_sentinel_witness :
    ((getVideoTranscripts lookupFail catalogSample).get
        ⟨0, by simp [getVideoTranscripts, catalogSample]⟩).transcript = strOf "n/a" :=
  getVideoTranscripts_sentinel lookupFail catalogSample 0 (by decide) rfl

/-- C4: row count and the (ordered) list of video identifiers are
unchanged from the Transcript Fetcher's output, through the Text
Normalizer, to the Embedding Generator's output: stages 3 and 4 only add
or rewrite columns, never add, remove or reorder rows. -/
theorem pipeline_schema_stability {ε : Type} (lookup : Str → Except ε (List Frag))
    (parse : Str → Int) (encode : Str → List Int) (D : Nat) (df0 : List CatalogRow) :
    (createTextEmbeddings encode D
        (transformData parse (getVideoTranscripts lookup df0))).rows.length
      = (getVideoTranscripts lookup df0).length ∧
    (createTextEmbeddings encode D
        (transformData parse (getVideoTranscripts lookup df0))).rows.map
        (fun r => r.video_id)
      = (getVideoTranscripts lookup df0).map (fun r => r.video_id) := by
  constructor
  · simp [createTextEmbeddings, transformData, setDatatypes, handleSpecialStrings_eq_map]
  · simp only [createTextEmbeddings, transformData, setDatatypes,
      handleSpecialStrings_eq_map, List.map_map]
    rfl

theorem joinWithSpace_eq_intersperse :
    ∀ l : List Str, joinWithSpace l = (l.intersperse (strOf " ")).flatten := by
  intro l
  induction l with
  | nil => rfl
  | cons s rest ih =>
    cases rest with
    | nil => simp [joinWithSpace, List.intersperse]
    | cons s2 rest2 =>
      simp only [joinWithSpace, List.intersperse]
      rw [ih]
      rfl

/-- C5: `extractTranscriptText` joins the fragments' `text` fields with
single-space separators in fragment order; on `[{text:"a"},{text:"b"}]`
it returns exactly `"a b"`. -/
theorem extractTranscriptText_join_spec :
    (∀ transcript : List Frag,
        extractTranscriptText transcript
          = ((transcript.map fun f => f.text).intersperse (strOf " ")).flatten) ∧
    extractTranscriptText [⟨strOf "a", 0, 0⟩, ⟨strOf "b", 0, 0⟩] = strOf "a b" :=
  ⟨fun _ => joinWithSpace_eq_intersperse _, by decide⟩

/-- C6: for an embedding model of output dimension `D`, the Embedding
Generator appends exactly 2×D numeric columns — for each of the two text
fields `title` and `transcript`, the columns `<field>_embedding-<i>` for
`i = 0 … D-1`, in that order — each of height equal to the row count. -/
theorem createTextEmbeddings_shape (encode : Str → List Int) (D : Nat) (df : List Row)
    (hD : ∀ s : Str, (encode s).length = D) :
    (createTextEmbeddings encode D df).embCols.length = 2 * D ∧
    (createTextEmbeddings encode D df).embCols.map (fun c => c.name)
      = ((List.range D).map fun i =>
          strOf "title" ++ strOf "_embedding-" ++ strOf (toString i))
        ++ ((List.range D).map fun i =>
          strOf "transcript" ++ strOf "_embedding-" ++ strOf (toString i)) ∧
    ∀ c ∈ (createTextEmbeddings encode D df).embCols, c.vals.length = df.length := by
  refine ⟨?_, ?_, ?_⟩
  · simp [createTextEmbeddings, embedColumns]
    omega
  · simp only [createTextEmbeddings, embedColumns, List.map_append, List.map_map]
    rfl
  · intro c hc
    simp only [createTextEmbeddings, embedColumns, List.mem_append, List.mem_map,
      List.mem_range] at hc
    rcases hc with ⟨i, hi, rfl⟩ | ⟨i, hi, rfl⟩ <;> simp [embCol]

/-- C6 (witness): the shape theorem applied to a concrete model of
output dimension 1 and a one-row table. -/
theorem createTextEmbeddings_shape_witness :
    (createTextEmbeddings encode1 1 goodTable).embCols.length = 2 * 1 ∧
    (createTextEmbeddings encode1 1 goodTable).embCols.map (fun c => c.name)
      = ((List.range 1).map fun i =>
          strOf "title" ++ strOf "_embedding-" ++ strOf (toString i))
        ++ ((List.range 1).map fun i =>
          strOf "transcript" ++ strOf "_embedding-" ++ strOf (toString i)) := by
  have h := createTextEmbeddings_shape encode1 1 goodTable (fun _ => rfl)
  exact ⟨h.1, h.2.1⟩

/-- C9: the Text Normalizer's substitutions send the title
`"sha Talebi&#39;s Channel"` to exactly `"Shaw Talebi's Channel"`
(written with the apostrophe character `apos`). -/
theorem handleSpecialStrings_title_example :
    handleSpecialStrings
        [{ video_id := strOf "v1", datetime := .utf8 (strOf "d"),
           title := strOf "sha Talebi&#39;s Channel", transcript := strOf "" }]
      = [{ video_id := strOf "v1", datetime := .utf8 (strOf "d"),
           title := strOf "Shaw Talebi" ++ apos :: strOf "s Channel",
           transcript := strOf "" }] := by
  decide

end ETL

